import Mathlib

/-!
Parcel store (`parcel.go`): a shallow embedding

`ParcelStore` holds a handle to a SQL database and turns each of its six
operations into one statement sent through `database/sql`.  The embedding has
three layers:

* the statement texts and the named arguments exactly as `parcel.go` writes
  them, and the six operations written over an arbitrary storage engine
  (`Engine`), which is how the Go code sees the database;
* what `database/sql` does between the store and the driver (`Row.Scan`,
  `Rows.Scan`, the iteration of `Rows`);
* a reference model of the storage engine (`sqlite`): a tokenizer and a parser
  for the SQL fragment the store uses, the binding of named arguments to the
  placeholders of a statement, and the effect of a statement on the one table
  `parcel`.
-/

namespace ParcelStore

/-! ## Values and records -/

/-- A value that travels between the store and the engine: SQL `NULL`, an
integer (Go `int`/`int64`; no arithmetic is done on it by the store), or a text. -/
inductive Value where
  | null
  | int (i : Int)
  | text (s : String)
  deriving DecidableEq

/-- Modelled from the spec: the record type `Parcel`, declared outside `parcel.go`
and `parcel_test.go`; five fields, `Number` and `Client` integers, `Status`,
`Address` and `CreatedAt` strings. -/
structure Parcel where
  Number : Int
  Client : Int
  Status : String
  Address : String
  CreatedAt : String
  deriving DecidableEq

/-- The zero value `Parcel{}`. -/
def Parcel.zero : Parcel := ⟨0, 0, "", "", ""⟩

/-- A named argument, `sql.Named(name, value)`. -/
structure NamedArg where
  name : String
  value : Value
  deriving DecidableEq

/-- Errors raised by the storage engine or the driver. -/
inductive EngineErr where
  /-- the statement text is not a statement of the SQL fragment (`syntax error`) -/
  | malformed
  /-- a placeholder of the statement has no argument of that name -/
  | missingArg (name : String)
  | noSuchTable (name : String)
  | noSuchColumn (name : String)
  /-- an `INSERT` with a column list and a value list of different lengths -/
  | arity
  /-- a value that the column cannot hold, or a write to the key column -/
  | rejected
  /-- any other failure (connection lost, disk full, ...) -/
  | other (code : Nat)
  deriving DecidableEq

/-- Errors raised by `Rows.Scan` when it converts a row to its destinations. -/
inductive ScanErr where
  /-- the row has not as many columns as `Scan` has destinations -/
  | count
  /-- the error `converting NULL to int/string is unsupported`, at destination `dest` -/
  | null (dest : Nat)
  /-- a text that is not a decimal 64-bit integer, at destination `dest` -/
  | convert (dest : Nat)
  deriving DecidableEq

/-- The errors the store can return. -/
inductive Err where
  /-- the error `sql.ErrNoRows` -/
  | noRows
  | engine (e : EngineErr)
  | scan (e : ScanErr)
  deriving DecidableEq

/-! ## The tokenizer -/

inductive Token where
  | word (s : String)
  | param (s : String)
  | lparen
  | rparen
  | comma
  | eq
  | bad (c : Char)
  deriving DecidableEq

/-- The word or placeholder the tokenizer is in the middle of (characters in
reverse order). -/
inductive Pending where
  | none
  | word (acc : List Char)
  | param (acc : List Char)
  deriving DecidableEq

def isNameChar (c : Char) : Bool := c.isAlphanum || c == '_'

def flush : Pending → List Token
  | .none => []
  | .word acc => [.word (String.mk acc.reverse)]
  | .param acc => [.param (String.mk acc.reverse)]

def symbol (c : Char) : Token :=
  if c == '(' then .lparen
  else if c == ')' then .rparen
  else if c == ',' then .comma
  else if c == '=' then .eq
  else .bad c

/-- Tokens of a statement text: words (keywords and identifiers),
placeholders `:name`, and the four symbols; a blank ends a word or
placeholder, and so does a symbol. -/
def lex : Pending → List Char → List Token
  | p, [] => flush p
  | p, c :: cs =>
    if isNameChar c then
      match p with
      | .none => lex (.word [c]) cs
      | .word acc => lex (.word (c :: acc)) cs
      | .param acc => lex (.param (c :: acc)) cs
    else if c == ':' then flush p ++ lex (.param []) cs
    else if c == ' ' then flush p ++ lex .none cs
    else flush p ++ symbol c :: lex .none cs

def tokens (text : String) : List Token := lex .none text.toList

/-- The names of the placeholders of a statement text, in order. -/
def placeholders (text : String) : List String :=
  (tokens text).filterMap fun t => match t with
    | .param s => some s
    | _ => none

/-! ## The parser -/

/-- A comparison `col = :param`. -/
structure Cond where
  col : String
  param : String
  deriving DecidableEq

inductive Stmt where
  | insert (table : String) (cols : List String) (params : List String)
  | select (cols : List String) (table : String) (conds : List Cond)
  | update (table : String) (col : String) (param : String) (conds : List Cond)
  | delete (table : String) (conds : List Cond)
  deriving DecidableEq

/-- A list `name (, name)*`, and what follows it. -/
def parseNames : List Token → Option (List String × List Token)
  | .word w :: .comma :: rest =>
    match parseNames rest with
    | some (ws, rest') => some (w :: ws, rest')
    | none => none
  | .word w :: rest => some ([w], rest)
  | _ => none

/-- A list `:param (, :param)*`, and what follows it. -/
def parseParams : List Token → Option (List String × List Token)
  | .param w :: .comma :: rest =>
    match parseParams rest with
    | some (ws, rest') => some (w :: ws, rest')
    | none => none
  | .param w :: rest => some ([w], rest)
  | _ => none

/-- Conditions `col = :param (AND col = :param)*` up to the end of the statement. -/
def parseConds : List Token → Option (List Cond)
  | [.word c, .eq, .param p] => some [⟨c, p⟩]
  | .word c :: .eq :: .param p :: .word "AND" :: rest =>
    match parseConds rest with
    | some cs => some (⟨c, p⟩ :: cs)
    | none => none
  | _ => none

def parse : List Token → Option Stmt
  | .word "INSERT" :: .word "INTO" :: .word t :: .lparen :: rest =>
    match parseNames rest with
    | some (cols, .rparen :: .word "VALUES" :: .lparen :: rest') =>
      match parseParams rest' with
      | some (ps, [.rparen]) => some (.insert t cols ps)
      | _ => none
    | _ => none
  | .word "SELECT" :: rest =>
    match parseNames rest with
    | some (cols, .word "FROM" :: .word t :: .word "WHERE" :: rest') =>
      (parseConds rest').map (.select cols t)
    | _ => none
  | .word "UPDATE" :: .word t :: .word "SET" :: .word c :: .eq :: .param p
      :: .word "WHERE" :: rest =>
    (parseConds rest).map (.update t c p)
  | .word "DELETE" :: .word "FROM" :: .word t :: .word "WHERE" :: rest =>
    (parseConds rest).map (.delete t)
  | _ => none

/-! ## The storage engine as the store sees it -/

/-- What `DB.Exec` hands back, `sql.Result`: `LastInsertId()` (which may fail)
and `RowsAffected()`. -/
structure ExecResult where
  lastInsertId : Except Err Int
  rowsAffected : Nat

/-- What `DB.Query` hands back, `*sql.Rows`: the rows for which `Next()` is
true, the error `Err()` reports once `Next()` is false, and the error of
`Close()`. -/
structure Cursor where
  rows : List (List Value)
  err : Option Err
  closeErr : Option Err

/-- A storage engine behind `*sql.DB`, with states `σ`: `exec` runs a
statement with its named arguments and may change the state, `query` reads. -/
structure Engine (σ : Type) where
  exec : σ → String → List NamedArg → σ × Except Err ExecResult
  query : σ → String → List NamedArg → Except Err Cursor

/-! ## `database/sql`: converting a row -/

/-- Value of a non-empty run of decimal digits. -/
def parseNat (cs : List Char) : Option Nat :=
  if cs.isEmpty then none
  else cs.foldl (fun acc c => acc.bind fun n =>
    if c.isDigit then some (10 * n + (c.toNat - '0'.toNat)) else none) (some 0)

/-- The call `strconv.ParseInt(s, 10, 64)`: an optional sign, decimal digits, and
the range of a 64-bit integer. -/
def parseInt (s : String) : Option Int :=
  match s.toList with
  | '-' :: ds => (parseNat ds).bind fun n => if n ≤ 2 ^ 63 then some (-(n : Int)) else none
  | '+' :: ds => (parseNat ds).bind fun n => if n < 2 ^ 63 then some (n : Int) else none
  | ds => (parseNat ds).bind fun n => if n < 2 ^ 63 then some (n : Int) else none

/-- Conversion of a column value to a destination of type `*int`. -/
def scanInt (dest : Nat) : Value → Except Err Int
  | .int i => .ok i
  | .null => .error (.scan (.null dest))
  | .text s =>
    match parseInt s with
    | some i => .ok i
    | none => .error (.scan (.convert dest))

/-- Conversion of a column value to a destination of type `*string`. -/
def scanString (dest : Nat) : Value → Except Err String
  | .text s => .ok s
  | .int i => .ok (toString i)
  | .null => .error (.scan (.null dest))

/-- The call `Scan(&p.Number, &p.Client, &p.Status, &p.Address, &p.CreatedAt)` on
one row: the destinations are filled from left to right, and the first conversion
that fails ends the scan, the fields to its left already written. -/
def scanParcel (p : Parcel) : List Value → Parcel × Option Err
  | [v0, v1, v2, v3, v4] =>
    match scanInt 0 v0 with
    | .error e => (p, some e)
    | .ok n =>
      match scanInt 1 v1 with
      | .error e => ({ p with Number := n }, some e)
      | .ok c =>
        match scanString 2 v2 with
        | .error e => ({ p with Number := n, Client := c }, some e)
        | .ok st =>
          match scanString 3 v3 with
          | .error e => ({ p with Number := n, Client := c, Status := st }, some e)
          | .ok ad =>
            match scanString 4 v4 with
            | .error e =>
              ({ p with Number := n, Client := c, Status := st, Address := ad }, some e)
            | .ok cr => (⟨n, c, st, ad, cr⟩, none)
  | _ => (p, some (.scan .count))

/-- The call `DB.QueryRow(...).Scan(...)`: the error of the query if it failed;
`sql.ErrNoRows` (or the iteration error) if there is no first row; otherwise
the scan of the first row, then the error of closing the rows. -/
def queryRowScan (q : Except Err Cursor) (p : Parcel) : Parcel × Option Err :=
  match q with
  | .error e => (p, some e)
  | .ok cur =>
    match cur.rows with
    | [] =>
      match cur.err with
      | some e => (p, some e)
      | none => (p, some .noRows)
    | raw :: _ =>
      match scanParcel p raw with
      | (p', some e) => (p', some e)
      | (p', none) => (p', cur.closeErr)

/-! ## The six operations of `ParcelStore`, statement texts as in `parcel.go` -/

def named (name : String) (v : Value) : NamedArg := ⟨name, v⟩

def addText : String :=
  "INSERT INTO parcel (client, status, address, created_at) VALUES (:client, :status, :address, :createdAt)"

def addArgs (p : Parcel) : List NamedArg :=
  [named "client" (.int p.Client), named "status" (.text p.Status),
   named "address" (.text p.Address), named "created_at" (.text p.CreatedAt)]

def getText : String :=
  "SELECT number, client, status, address, created_at FROM parcel WHERE number = :number"

def getArgs (number : Int) : List NamedArg := [named "number" (.int number)]

def getByClientText : String :=
  "SELECT number, client, status, address, created_at FROM parcel WHERE client = :client"

def getByClientArgs (client : Int) : List NamedArg := [named "client" (.int client)]

def setStatusText : String := "UPDATE parcel SET status = :status WHERE number = :number"

def setStatusArgs (number : Int) (status : String) : List NamedArg :=
  [named "status" (.text status), named "number" (.int number)]

def ParcelStatusRegistered : String := "registered"

def setAddressText : String :=
  "UPDATE parcel SET address = :address  WHERE number = :number AND status = :status"

def setAddressArgs (number : Int) (address : String) : List NamedArg :=
  [named "address " (.text address), named "number" (.int number),
   named "status" (.text ParcelStatusRegistered)]

def deleteText : String := "DELETE FROM parcel WHERE number = :number, status = :status"

def deleteArgs (number : Int) : List NamedArg :=
  [named "number" (.int number), named "status" (.text ParcelStatusRegistered)]

/-- The method `ParcelStore.Add`: the new state, the returned identifier and error. -/
def Add {σ : Type} (E : Engine σ) (db : σ) (p : Parcel) : σ × Int × Option Err :=
  match E.exec db addText (addArgs p) with
  | (db', .error e) => (db', 0, some e)
  | (db', .ok res) =>
    match res.lastInsertId with
    | .error e => (db', 0, some e)
    | .ok id => (db', id, none)

/-- The method `ParcelStore.Get`: the returned parcel and error. -/
def Get {σ : Type} (E : Engine σ) (db : σ) (number : Int) : Parcel × Option Err :=
  queryRowScan (E.query db getText (getArgs number)) Parcel.zero

/-- The loop `for rows.Next() { ... }` of `GetByClient`: `res` grows by one
parcel per row; a failed scan leaves the function with that error. -/
def scanRows : List (List Value) → List Parcel → Except Err (List Parcel)
  | [], res => .ok res
  | raw :: rest, res =>
    match scanParcel Parcel.zero raw with
    | (_, some e) => .error e
    | (p, none) => scanRows rest (res ++ [p])

/-- The method `ParcelStore.GetByClient`: the returned slice (`nil` is `[]`) and error. -/
def GetByClient {σ : Type} (E : Engine σ) (db : σ) (client : Int) : List Parcel × Option Err :=
  match E.query db getByClientText (getByClientArgs client) with
  | .error e => ([], some e)
  | .ok cur =>
    match scanRows cur.rows [] with
    | .error e => ([], some e)
    | .ok res =>
      match cur.err with
      | some e => ([], some e)
      | none => (res, none)

/-- The method `ParcelStore.SetStatus`: the new state and the returned error. -/
def SetStatus {σ : Type} (E : Engine σ) (db : σ) (number : Int) (status : String) : σ × Option Err :=
  match E.exec db setStatusText (setStatusArgs number status) with
  | (db', .error e) => (db', some e)
  | (db', .ok _) => (db', none)

/-- The method `ParcelStore.SetAddress`: the new state and the returned error. -/
def SetAddress {σ : Type} (E : Engine σ) (db : σ) (number : Int) (address : String) : σ × Option Err :=
  match E.exec db setAddressText (setAddressArgs number address) with
  | (db', .error e) => (db', some e)
  | (db', .ok _) => (db', none)

/-- The method `ParcelStore.Delete`: the new state and the returned error. -/
def Delete {σ : Type} (E : Engine σ) (db : σ) (number : Int) : σ × Option Err :=
  match E.exec db deleteText (deleteArgs number) with
  | (db', .error e) => (db', some e)
  | (db', .ok _) => (db', none)

/-! ## A reference model of the storage engine

One table, `parcel`, with the key column `number` and four columns that hold
`NULL` or a value of their declared type.  A statement is tokenized and parsed,
its table and columns are resolved, its placeholders are bound from the named
arguments, and it is run against the rows. -/

inductive Col where
  | number
  | client
  | status
  | address
  | created_at
  deriving DecidableEq

def Col.ofName (s : String) : Option Col :=
  if s = "number" then some .number
  else if s = "client" then some .client
  else if s = "status" then some .status
  else if s = "address" then some .address
  else if s = "created_at" then some .created_at
  else none

/-- A row of the table `parcel`; `none` is `NULL`. -/
structure Row where
  number : Int
  client : Option Int
  status : Option String
  address : Option String
  created_at : Option String
  deriving DecidableEq

/-- The table `parcel`: its rows in insertion order, and the largest key the
engine has handed out so far (the counter of an `AUTOINCREMENT` key; a new row
gets one more than the largest key in use or handed out). -/
structure Table where
  rows : List Row
  seq : Nat
  deriving DecidableEq

def Row.get (r : Row) : Col → Value
  | .number => .int r.number
  | .client => match r.client with
    | some i => .int i
    | none => .null
  | .status => match r.status with
    | some s => .text s
    | none => .null
  | .address => match r.address with
    | some s => .text s
    | none => .null
  | .created_at => match r.created_at with
    | some s => .text s
    | none => .null

/-- Whether a statement may write the value to the column: `NULL` or a value
of the declared type, and never the key column. -/
def fits : Col → Value → Bool
  | .client, .int _ => true
  | .client, .null => true
  | .status, .text _ => true
  | .status, .null => true
  | .address, .text _ => true
  | .address, .null => true
  | .created_at, .text _ => true
  | .created_at, .null => true
  | _, _ => false

/-- The row with one column overwritten (for a value that `fits`). -/
def Row.put (r : Row) : Col → Value → Row
  | .client, .int i => { r with client := some i }
  | .client, .null => { r with client := none }
  | .status, .text s => { r with status := some s }
  | .status, .null => { r with status := none }
  | .address, .text s => { r with address := some s }
  | .address, .null => { r with address := none }
  | .created_at, .text s => { r with created_at := some s }
  | .created_at, .null => { r with created_at := none }
  | _, _ => r

/-- SQL equality as a `WHERE` condition: a comparison with `NULL` is not true. -/
def sqlEq : Value → Value → Bool
  | .int i, .int j => i == j
  | .text s, .text t => s == t
  | _, _ => false

/-- What the driver does with a placeholder that no named argument matches:
`strict` fails the statement, `lenient` leaves the placeholder `NULL`. -/
inductive Binding where
  | strict
  | lenient
  deriving DecidableEq

/-- The value of the first argument whose name is exactly `name`. -/
def lookupArg (args : List NamedArg) (name : String) : Option Value :=
  match args with
  | [] => none
  | a :: rest => if a.name = name then some a.value else lookupArg rest name

def bindParam (b : Binding) (args : List NamedArg) (name : String) : Except Err Value :=
  match lookupArg args name with
  | some v => .ok v
  | none =>
    match b with
    | .strict => .error (.engine (.missingArg name))
    | .lenient => .ok .null

def bindParams (b : Binding) (args : List NamedArg) : List String → Except Err (List Value)
  | [] => .ok []
  | n :: ns =>
    match bindParam b args n with
    | .error e => .error e
    | .ok v =>
      match bindParams b args ns with
      | .error e => .error e
      | .ok vs => .ok (v :: vs)

def resolveCols : List String → Except Err (List Col)
  | [] => .ok []
  | n :: ns =>
    match Col.ofName n with
    | none => .error (.engine (.noSuchColumn n))
    | some c =>
      match resolveCols ns with
      | .error e => .error e
      | .ok cs => .ok (c :: cs)

/-- A statement whose table and columns are resolved; the placeholders are
still names. -/
inductive Prepared where
  | insert (cols : List Col) (params : List String)
  | select (cols : List Col) (conds : List (Col × String))
  | update (col : Col) (param : String) (conds : List (Col × String))
  | delete (conds : List (Col × String))
  deriving DecidableEq

def resolveConds : List Cond → Except Err (List (Col × String))
  | [] => .ok []
  | c :: cs =>
    match Col.ofName c.col with
    | none => .error (.engine (.noSuchColumn c.col))
    | some col =>
      match resolveConds cs with
      | .error e => .error e
      | .ok rest => .ok ((col, c.param) :: rest)

def checkTable (t : String) : Except Err Unit :=
  if t = "parcel" then .ok () else .error (.engine (.noSuchTable t))

/-- Preparing a statement text: tokenize, parse, resolve. -/
def prepare (text : String) : Except Err Prepared :=
  match parse (tokens text) with
  | none => .error (.engine .malformed)
  | some (.insert t cols params) =>
    match checkTable t, resolveCols cols with
    | .error e, _ => .error e
    | .ok _, .error e => .error e
    | .ok _, .ok cs =>
      if cs.length = params.length then .ok (.insert cs params)
      else .error (.engine .arity)
  | some (.select cols t conds) =>
    match checkTable t, resolveCols cols, resolveConds conds with
    | .error e, _, _ => .error e
    | .ok _, .error e, _ => .error e
    | .ok _, .ok _, .error e => .error e
    | .ok _, .ok cs, .ok ws => .ok (.select cs ws)
  | some (.update t c p conds) =>
    match checkTable t, Col.ofName c, resolveConds conds with
    | .error e, _, _ => .error e
    | .ok _, none, _ => .error (.engine (.noSuchColumn c))
    | .ok _, some _, .error e => .error e
    | .ok _, some col, .ok ws => .ok (.update col p ws)
  | some (.delete t conds) =>
    match checkTable t, resolveConds conds with
    | .error e, _ => .error e
    | .ok _, .error e => .error e
    | .ok _, .ok ws => .ok (.delete ws)

/-- The conditions with their placeholders bound. -/
def bindConds (b : Binding) (args : List NamedArg) :
    List (Col × String) → Except Err (List (Col × Value))
  | [] => .ok []
  | (c, n) :: cs =>
    match bindParam b args n with
    | .error e => .error e
    | .ok v =>
      match bindConds b args cs with
      | .error e => .error e
      | .ok rest => .ok ((c, v) :: rest)

/-- Whether the row satisfies every condition. -/
def Row.satisfies (r : Row) (conds : List (Col × Value)) : Bool :=
  conds.all fun cv => sqlEq (r.get cv.1) cv.2

/-- The largest key in use or handed out before. -/
def Table.lastId (db : Table) : Int :=
  db.rows.foldl (fun m r => max m r.number) (db.seq : Int)

/-- The row an `INSERT` builds: the listed columns written in order onto a row
of `NULL`s with the key `number`. -/
def buildRow (number : Int) : List Col → List Value → Row
  | c :: cs, v :: vs => (buildRow number cs vs).put c v
  | _, _ => ⟨number, none, none, none, none⟩

def allFit : List Col → List Value → Bool
  | c :: cs, v :: vs => fits c v && allFit cs vs
  | _, _ => true

/-- The statement `DB.Exec` runs in the reference engine: the new table and
the result.  A statement that fails leaves the table as it was. -/
def sqliteExec (b : Binding) (db : Table) (text : String) (args : List NamedArg) :
    Table × Except Err ExecResult :=
  match prepare text with
  | .error e => (db, .error e)
  | .ok (.insert cols params) =>
    match bindParams b args params with
    | .error e => (db, .error e)
    | .ok vs =>
      if allFit cols vs then
        let id := db.lastId + 1
        (⟨db.rows ++ [buildRow id cols vs], id.toNat⟩, .ok ⟨.ok id, 1⟩)
      else (db, .error (.engine .rejected))
  | .ok (.update col param conds) =>
    match bindParam b args param, bindConds b args conds with
    | .error e, _ => (db, .error e)
    | .ok _, .error e => (db, .error e)
    | .ok v, .ok ws =>
      if fits col v then
        (⟨db.rows.map fun r => if r.satisfies ws then r.put col v else r, db.seq⟩,
          .ok ⟨.ok db.seq, (db.rows.filter fun r => r.satisfies ws).length⟩)
      else (db, .error (.engine .rejected))
  | .ok (.delete conds) =>
    match bindConds b args conds with
    | .error e => (db, .error e)
    | .ok ws =>
      (⟨db.rows.filter fun r => !r.satisfies ws, db.seq⟩,
        .ok ⟨.ok db.seq, (db.rows.filter fun r => r.satisfies ws).length⟩)
  | .ok (.select _ conds) =>
    match bindConds b args conds with
    | .error e => (db, .error e)
    | .ok _ => (db, .ok ⟨.ok db.seq, 0⟩)

/-- The statement `DB.Query` runs in the reference engine.  A query of the
model only reads: a text that is no `SELECT` is refused (the store queries
with `SELECT` only).  The rows come in the order of the model's row list; the
order in which a real engine delivers them is not modelled, and what is proved
of `GetByClient` is stated up to order. -/
def sqliteQuery (b : Binding) (db : Table) (text : String) (args : List NamedArg) :
    Except Err Cursor :=
  match prepare text with
  | .error e => .error e
  | .ok (.select cols conds) =>
    match bindConds b args conds with
    | .error e => .error e
    | .ok ws =>
      .ok ⟨(db.rows.filter fun r => r.satisfies ws).map fun r => cols.map r.get, none, none⟩
  | .ok _ => .error (.engine .rejected)

/-- The reference engine. -/
def sqlite (b : Binding) : Engine Table := ⟨sqliteExec b, sqliteQuery b⟩

/-! ## Rows and parcels -/

/-- The row that stores a parcel. -/
def Parcel.toRow (p : Parcel) : Row :=
  ⟨p.Number, some p.Client, some p.Status, some p.Address, some p.CreatedAt⟩

/-- The five cells of a row in the order of the `SELECT` list. -/
def Row.cells (r : Row) : List Value :=
  [r.get .number, r.get .client, r.get .status, r.get .address, r.get .created_at]

/-! ## Placeholders against arguments -/

def columnNames : List String := ["number", "client", "status", "address", "created_at"]

def argNames (args : List NamedArg) : List String := args.map fun a => a.name

/-- The placeholders of the text that no argument names exactly. -/
def unbound (text : String) (args : List NamedArg) : List String :=
  (placeholders text).filter fun ph => !(argNames args).contains ph

/-- The argument names that are no placeholder of the text. -/
def unused (text : String) (args : List NamedArg) : List String :=
  (argNames args).filter fun a => !(placeholders text).contains a

/-- The placeholders of the text that are not the name of a column. -/
def notColumns (text : String) : List String :=
  (placeholders text).filter fun ph => !columnNames.contains ph

/-! ## Test data and the reading of "reports the gate" -/

def testParcel : Parcel := ⟨0, 1000, "registered", "test", "2024-01-01T00:00:00Z"⟩

/-- The test's parcel as stored under number 1. -/
def storedTestParcel : Parcel := ⟨1, 1000, "registered", "test", "2024-01-01T00:00:00Z"⟩

/-- A table that holds the test's parcel and nothing else. -/
def testTable : Table := ⟨[storedTestParcel.toRow], 1⟩

/-- The same parcel once its status has moved on from "registered". -/
def sentParcel : Parcel := ⟨1, 1000, "sent", "test", "2024-01-01T00:00:00Z"⟩

def sentTable : Table := ⟨[sentParcel.toRow], 1⟩

/-- A mutation reports the gate when the call that the gate blocks returns an
error, and not the same outcome as the call on the parcel in status
"registered", which the gate lets pass. -/
def ReportsGate (blocked passed : Option Err) : Prop :=
  blocked ≠ none ∧ blocked ≠ passed

/-- An engine whose query fails outright. -/
def downEngine : Engine Unit :=
  ⟨fun s _ _ => (s, .error (.engine (.other 1))), fun _ _ _ => .error (.engine (.other 1))⟩

/-- An engine whose query delivers one good row, then a row with a `NULL`
status, then another good row. -/
def nullRowEngine : Engine Unit :=
  ⟨fun s _ _ => (s, .error (.engine (.other 1))),
   fun _ _ _ => .ok ⟨[[.int 1, .int 7, .text "registered", .text "a", .text "t1"],
                      [.int 2, .int 7, .null, .text "b", .text "t2"],
                      [.int 3, .int 7, .text "sent", .text "c", .text "t3"]], none, none⟩⟩

/-- An engine whose query delivers two good rows and then reports that the
iteration broke off. -/
def brokenIterationEngine : Engine Unit :=
  ⟨fun s _ _ => (s, .error (.engine (.other 1))),
   fun _ _ _ => .ok ⟨[[.int 1, .int 7, .text "registered", .text "a", .text "t1"],
                      [.int 3, .int 7, .text "sent", .text "c", .text "t3"]],
                     some (.engine (.other 2)), none⟩⟩

/-! ## The prepared form of the six statements -/

theorem prepare_addText :
    prepare addText = .ok (.insert [.client, .status, .address, .created_at]
      ["client", "status", "address", "createdAt"]) := by rfl

theorem prepare_getText :
    prepare getText = .ok (.select [.number, .client, .status, .address, .created_at]
      [(.number, "number")]) := by rfl

theorem prepare_getByClientText :
    prepare getByClientText = .ok (.select [.number, .client, .status, .address, .created_at]
      [(.client, "client")]) := by rfl

theorem prepare_setStatusText :
    prepare setStatusText = .ok (.update .status "status" [(.number, "number")]) := by rfl

theorem prepare_setAddressText :
    prepare setAddressText =
      .ok (.update .address "address" [(.number, "number"), (.status, "status")]) := by rfl

theorem prepare_deleteText : prepare deleteText = .error (.engine .malformed) := by rfl

theorem satisfies_number (r : Row) (n : Int) :
    r.satisfies [(.number, .int n)] = (r.number == n) := by
  simp [Row.satisfies, sqlEq, Row.get]

theorem satisfies_client (r : Row) (c : Int) :
    r.satisfies [(.client, .int c)] = (r.client == some c) := by
  cases h : r.client <;> simp [Row.satisfies, sqlEq, Row.get, h]

theorem satisfies_number_status (r : Row) (n : Int) (s : String) :
    r.satisfies [(.number, .int n), (.status, .text s)] =
      (r.number == n && r.status == some s) := by
  cases h : r.status <;> simp [Row.satisfies, sqlEq, Row.get, h]

theorem map_get_cells (r : Row) :
    [Col.number, .client, .status, .address, .created_at].map r.get = r.cells := rfl

theorem query_getText (b : Binding) (db : Table) (n : Int) :
    sqliteQuery b db getText (getArgs n) =
      .ok ⟨(db.rows.filter fun r => r.number == n).map Row.cells, none, none⟩ := by
  simp only [sqliteQuery, prepare_getText, bindConds, bindParam, lookupArg, getArgs, named,
    satisfies_number, map_get_cells]
  simp [satisfies_number, satisfies_client, satisfies_number_status]

theorem query_getByClientText (b : Binding) (db : Table) (c : Int) :
    sqliteQuery b db getByClientText (getByClientArgs c) =
      .ok ⟨(db.rows.filter fun r => r.client == some c).map Row.cells, none, none⟩ := by
  simp only [sqliteQuery, prepare_getByClientText, bindConds, bindParam, lookupArg,
    getByClientArgs, named, satisfies_client, map_get_cells]
  simp [satisfies_number, satisfies_client, satisfies_number_status]

theorem exec_setStatusText (b : Binding) (db : Table) (n : Int) (s : String) :
    sqliteExec b db setStatusText (setStatusArgs n s) =
      (⟨db.rows.map fun r => if r.number == n then { r with status := some s } else r, db.seq⟩,
        .ok ⟨.ok db.seq, (db.rows.filter fun r => r.number == n).length⟩) := by
  simp only [sqliteExec, prepare_setStatusText, bindConds, bindParam, lookupArg,
    setStatusArgs, named, satisfies_number, fits, Row.put]
  simp [satisfies_number, satisfies_client, satisfies_number_status]

theorem exec_setAddressText_strict (db : Table) (n : Int) (a : String) :
    sqliteExec .strict db setAddressText (setAddressArgs n a) =
      (db, .error (.engine (.missingArg "address"))) := by
  simp only [sqliteExec, prepare_setAddressText, bindConds, bindParam, lookupArg,
    setAddressArgs, named]
  simp [satisfies_number, satisfies_client, satisfies_number_status]

theorem exec_setAddressText_lenient (db : Table) (n : Int) (a : String) :
    sqliteExec .lenient db setAddressText (setAddressArgs n a) =
      (⟨db.rows.map fun r =>
          if r.number == n && r.status == some ParcelStatusRegistered
          then { r with address := none } else r, db.seq⟩,
        .ok ⟨.ok db.seq, (db.rows.filter fun r =>
          r.number == n && r.status == some ParcelStatusRegistered).length⟩) := by
  simp only [sqliteExec, prepare_setAddressText, bindConds, bindParam, lookupArg,
    setAddressArgs, named, satisfies_number_status, fits, Row.put]
  simp [satisfies_number, satisfies_client, satisfies_number_status]

theorem exec_deleteText (b : Binding) (db : Table) (n : Int) :
    sqliteExec b db deleteText (deleteArgs n) = (db, .error (.engine .malformed)) := by
  simp only [sqliteExec, prepare_deleteText]

theorem exec_addText_strict (db : Table) (p : Parcel) :
    sqliteExec .strict db addText (addArgs p) =
      (db, .error (.engine (.missingArg "createdAt"))) := by
  simp only [sqliteExec, prepare_addText, bindParams, bindParam, lookupArg, addArgs, named]
  simp [satisfies_number, satisfies_client, satisfies_number_status]

theorem exec_addText_lenient (db : Table) (p : Parcel) :
    sqliteExec .lenient db addText (addArgs p) =
      (⟨db.rows ++ [⟨db.lastId + 1, some p.Client, some p.Status, some p.Address, none⟩],
          (db.lastId + 1).toNat⟩, .ok ⟨.ok (db.lastId + 1), 1⟩) := by
  simp only [sqliteExec, prepare_addText, bindParams, bindParam, lookupArg, addArgs, named]
  simp [allFit, fits, buildRow, Row.put]

/-! ## Scanning the rows of the reference engine -/

theorem scanParcel_toRow (p q : Parcel) : scanParcel p q.toRow.cells = (q, none) := by
  simp [scanParcel, Row.cells, Row.get, Parcel.toRow, scanInt, scanString]

theorem scanParcel_cells_ok (r : Row) (p q : Parcel)
    (h : scanParcel p r.cells = (q, none)) : r = q.toRow := by
  obtain ⟨n, c, s, a, t⟩ := r
  cases c <;> cases s <;> cases a <;> cases t <;>
    simp [scanParcel, Row.cells, Row.get, scanInt, scanString] at h
  subst h
  rfl

theorem Get_sqlite (b : Binding) (db : Table) (n : Int) :
    Get (sqlite b) db n =
      match db.rows.filter fun r => r.number == n with
      | [] => (Parcel.zero, some .noRows)
      | r :: _ => scanParcel Parcel.zero r.cells := by
  simp only [Get, sqlite, query_getText, queryRowScan]
  cases h : db.rows.filter fun r => r.number == n with
  | nil => simp
  | cons r rest =>
    simp only [List.map_cons]
    rcases hs : scanParcel Parcel.zero r.cells with ⟨p', _ | e⟩ <;> simp

/-- A parcel that `Get` returns is stored in the first row with that key. -/
theorem Get_ok_row (b : Binding) (db : Table) (n : Int) (q : Parcel)
    (h : Get (sqlite b) db n = (q, none)) :
    ∃ rest, (db.rows.filter fun r => r.number == n) = q.toRow :: rest := by
  rw [Get_sqlite] at h
  cases hf : db.rows.filter fun r => r.number == n with
  | nil => simp [hf] at h
  | cons r rest =>
    simp only [hf] at h
    exact ⟨rest, by rw [scanParcel_cells_ok r _ q h]⟩

theorem Get_ok_number (b : Binding) (db : Table) (n : Int) (q : Parcel)
    (h : Get (sqlite b) db n = (q, none)) : q.Number = n := by
  obtain ⟨rest, hr⟩ := Get_ok_row b db n q h
  have hm : q.toRow ∈ db.rows.filter fun r => r.number == n := by simp [hr]
  simpa [Parcel.toRow] using (List.mem_filter.mp hm).2

theorem filter_number_map (f : Row → Row) (hf : ∀ r, (f r).number = r.number)
    (rows : List Row) (m : Int) :
    (rows.map f).filter (fun r => r.number == m) =
      (rows.filter fun r => r.number == m).map f := by
  induction rows with
  | nil => rfl
  | cons r rest ih =>
    by_cases h : r.number = m <;> simp [List.filter_cons, hf, h, ih]

theorem filter_number_map_other (f : Row → Row) (n m : Int) (hm : m ≠ n)
    (hf : ∀ r, r.number ≠ n → f r = r) (hn : ∀ r, r.number = n → (f r).number = n)
    (rows : List Row) :
    (rows.map f).filter (fun r => r.number == m) = rows.filter fun r => r.number == m := by
  induction rows with
  | nil => rfl
  | cons r rest ih =>
    by_cases h : r.number = n
    · have h1 : ¬ (f r).number = m := by rw [hn r h]; exact fun e => hm e.symm
      have h2 : ¬ r.number = m := by rw [h]; exact fun e => hm e.symm
      simp [List.filter_cons, h1, h2, ih]
    · simp [List.filter_cons, hf r h, ih]

/-! ## The claims -/

/-- C6: for a parcel stored under `number` (one that `Get` returns), whatever
its status, and every string `s`, `SetStatus(number, s)` returns no error;
`Get(number)` then returns the parcel with `Status` equal to `s` and the other
four fields as before; a row with another number is unchanged and a row with
this number changes in its status only. -/
theorem SetStatus_overwrites_status (b : Binding) (db : Table) (n : Int) (s : String)
    (q : Parcel) (h : Get (sqlite b) db n = (q, none)) :
    (SetStatus (sqlite b) db n s).2 = none ∧
    Get (sqlite b) (SetStatus (sqlite b) db n s).1 n = ({ q with Status := s }, none) ∧
    (SetStatus (sqlite b) db n s).1.rows =
      db.rows.map (fun r => if r.number = n then { r with status := some s } else r) ∧
    ∀ m, m ≠ n → Get (sqlite b) (SetStatus (sqlite b) db n s).1 m = Get (sqlite b) db m := by
  have hq := Get_ok_number b db n q h
  obtain ⟨rest, hr⟩ := Get_ok_row b db n q h
  have hex : SetStatus (sqlite b) db n s =
      (⟨db.rows.map fun r => if r.number == n then { r with status := some s } else r,
        db.seq⟩, none) := by
    simp only [SetStatus, sqlite, exec_setStatusText]
  refine ⟨by rw [hex], ?_, by rw [hex]; simp, ?_⟩
  · rw [hex, Get_sqlite]
    simp only
    rw [filter_number_map _ (by intro r; by_cases hn : r.number = n <;> simp [hn]), hr]
    simp only [List.map_cons]
    have : (if q.toRow.number == n then { q.toRow with status := some s } else q.toRow) =
        ({ q with Status := s } : Parcel).toRow := by
      simp [Parcel.toRow, hq]
    rw [this, scanParcel_toRow]
  · intro m hm
    rw [hex, Get_sqlite, Get_sqlite]
    simp only
    rw [filter_number_map_other _ n m hm (by intro r hn; simp [hn])
      (by intro r hn; simp [hn])]

/-- C6, at the test's input: the test parcel stored under number 1, status
set to "new test status". -/
theorem SetStatus_overwrites_status_witness :
    Get (sqlite .strict) ⟨[({ testParcel with Number := 1 } : Parcel).toRow], 1⟩ 1 =
      ({ testParcel with Number := 1 }, none) ∧
    Get (sqlite .strict)
      (SetStatus (sqlite .strict) ⟨[({ testParcel with Number := 1 } : Parcel).toRow], 1⟩ 1
        "new test status").1 1 =
      (⟨1, 1000, "new test status", "test", "2024-01-01T00:00:00Z"⟩, none) :=
  ⟨by rw [Get_sqlite]; rfl,
   (SetStatus_overwrites_status .strict ⟨[({ testParcel with Number := 1 } : Parcel).toRow], 1⟩
      1 "new test status" { testParcel with Number := 1 } (by rw [Get_sqlite]; rfl)).2.1⟩

theorem scanRows_ok (l : List (List Value))
    (h : ∀ x ∈ l, (scanParcel Parcel.zero x).2 = none) (acc : List Parcel) :
    scanRows l acc = .ok (acc ++ l.map fun x => (scanParcel Parcel.zero x).1) := by
  induction l generalizing acc with
  | nil => simp [scanRows]
  | cons x rest ih =>
    have hx := h x (List.mem_cons_self x rest)
    rcases hs : scanParcel Parcel.zero x with ⟨p, _ | e⟩
    · simp only [scanRows, hs]
      rw [ih (fun y hy => h y (List.mem_cons_of_mem x hy))]
      simp [hs]
    · simp [hs] at hx

theorem scanRows_fail (pre post : List (List Value)) (raw : List Value) (p : Parcel) (e : Err)
    (hpre : ∀ x ∈ pre, (scanParcel Parcel.zero x).2 = none)
    (hraw : scanParcel Parcel.zero raw = (p, some e)) (acc : List Parcel) :
    scanRows (pre ++ raw :: post) acc = .error e := by
  induction pre generalizing acc with
  | nil => simp [scanRows, hraw]
  | cons x rest ih =>
    have hx := hpre x (List.mem_cons_self x rest)
    rcases hs : scanParcel Parcel.zero x with ⟨p', _ | e'⟩
    · simp only [List.cons_append, scanRows, hs]
      exact ih (fun y hy => hpre y (List.mem_cons_of_mem x hy)) _
    · simp [hs] at hx

/-- C7 fails on the code: a table whose one row of client 7 has a `NULL`
status.  The query succeeds (the engine reports no failure and delivers the
row), yet `GetByClient(7)` returns the nil sequence and the error of `Scan`,
which cannot put `NULL` into the string field `Status`. -/
theorem GetByClient_null_row_fails :
    (sqlite .strict).query ⟨[⟨1, some 7, none, some "test", some "t1"⟩], 1⟩
        getByClientText (getByClientArgs 7) =
      .ok ⟨[[.int 1, .int 7, .null, .text "test", .text "t1"]], none, none⟩ ∧
    GetByClient (sqlite .strict) ⟨[⟨1, some 7, none, some "test", some "t1"⟩], 1⟩ 7 =
      ([], some (.scan (.null 2))) ∧
    GetByClient (sqlite .lenient) ⟨[⟨1, some 7, none, some "test", some "t1"⟩], 1⟩ 7 =
      ([], some (.scan (.null 2))) := by
  refine ⟨?_, ?_, ?_⟩
  · simp only [sqlite, query_getByClientText]
    rfl
  · simp only [GetByClient, sqlite, query_getByClientText]
    rfl
  · simp only [GetByClient, sqlite, query_getByClientText]
    rfl

/-- C7 as amended: when every stored row of client `c` holds a parcel (no
`NULL` cell), `GetByClient(c)` returns no error and a sequence whose rows
are, up to order, exactly the stored rows with `client = c`: each of them
once, all five fields as stored, and no row of another client; with no such
row the sequence is empty and there is still no error. -/
theorem GetByClient_exact (b : Binding) (db : Table) (c : Int)
    (h : ∀ r ∈ db.rows, r.client = some c → ∃ q : Parcel, r = q.toRow) :
    ∃ ps, GetByClient (sqlite b) db c = (ps, none) ∧
      (ps.map Parcel.toRow).Perm (db.rows.filter (fun r => r.client == some c)) ∧
      ((∀ r ∈ db.rows, r.client ≠ some c) → ps = []) := by
  have hall : ∀ x ∈ (db.rows.filter fun r => r.client == some c).map Row.cells,
      (scanParcel Parcel.zero x).2 = none := by
    intro x hx
    obtain ⟨r, hr, rfl⟩ := List.mem_map.mp hx
    have hr' := List.mem_filter.mp hr
    obtain ⟨q, rfl⟩ := h r hr'.1 (by simpa using hr'.2)
    rw [scanParcel_toRow]
  refine ⟨((db.rows.filter fun r => r.client == some c).map Row.cells).map
      fun x => (scanParcel Parcel.zero x).1, ?_, ?_, ?_⟩
  · simp only [GetByClient, sqlite, query_getByClientText]
    rw [scanRows_ok _ hall]
    simp
  · have heq : ((((db.rows.filter fun r => r.client == some c).map Row.cells).map
        fun x => (scanParcel Parcel.zero x).1).map Parcel.toRow) =
        db.rows.filter (fun r => r.client == some c) := by
      rw [List.map_map, List.map_map]
      conv_rhs => rw [← List.map_id (db.rows.filter fun r => r.client == some c)]
      apply List.map_congr_left
      intro r hr
      have hr' := List.mem_filter.mp hr
      obtain ⟨q, rfl⟩ := h r hr'.1 (by simpa using hr'.2)
      simp [scanParcel_toRow]
    rw [heq]
  · intro hnone
    have : (db.rows.filter fun r => r.client == some c) = [] := by
      rw [List.filter_eq_nil_iff]
      intro r hr
      simpa using hnone r hr
    simp [this]

/-- C7 as amended, at the test's input: three parcels of client 7 stored
between rows of other clients (one of them all `NULL`) are returned as
exactly those three. -/
theorem GetByClient_exact_witness :
    ∃ ps, GetByClient (sqlite .strict)
        ⟨[⟨1, some 7, some "registered", some "test", some "t1"⟩,
          ⟨2, some 8, some "sent", some "other", some "t2"⟩,
          ⟨3, some 7, some "registered", some "test", some "t3"⟩,
          ⟨4, none, none, none, none⟩,
          ⟨5, some 7, some "registered", some "test", some "t5"⟩], 5⟩ 7 = (ps, none) ∧
      (ps.map Parcel.toRow).Perm
        [⟨1, some 7, some "registered", some "test", some "t1"⟩,
         ⟨3, some 7, some "registered", some "test", some "t3"⟩,
         ⟨5, some 7, some "registered", some "test", some "t5"⟩] := by
  obtain ⟨ps, h1, h2, _⟩ := GetByClient_exact .strict
    ⟨[⟨1, some 7, some "registered", some "test", some "t1"⟩,
      ⟨2, some 8, some "sent", some "other", some "t2"⟩,
      ⟨3, some 7, some "registered", some "test", some "t3"⟩,
      ⟨4, none, none, none, none⟩,
      ⟨5, some 7, some "registered", some "test", some "t5"⟩], 5⟩ 7
    (by
      intro r hr hc
      simp only [List.mem_cons, List.mem_singleton, List.not_mem_nil, or_false] at hr
      rcases hr with rfl | rfl | rfl | rfl | rfl
      · exact ⟨⟨1, 7, "registered", "test", "t1"⟩, rfl⟩
      · simp at hc
      · exact ⟨⟨3, 7, "registered", "test", "t3"⟩, rfl⟩
      · simp at hc
      · exact ⟨⟨5, 7, "registered", "test", "t5"⟩, rfl⟩)
  exact ⟨ps, h1, h2⟩

/-- C9: over any storage engine, `GetByClient` is all-or-nothing.  If the
query fails with `e`, or the scan of a row fails with `e` after any number of
rows scanned well, or every row scans well and the iterator then reports `e`,
the result is the empty (nil) sequence together with `e`; a non-empty sequence
comes only with a nil error. -/
theorem GetByClient_all_or_nothing {σ : Type} (E : Engine σ) (s : σ) (c : Int) :
    (∀ e, E.query s getByClientText (getByClientArgs c) = .error e →
      GetByClient E s c = ([], some e)) ∧
    (∀ cur pre raw post p e, E.query s getByClientText (getByClientArgs c) = .ok cur →
      cur.rows = pre ++ raw :: post →
      (∀ x ∈ pre, (scanParcel Parcel.zero x).2 = none) →
      scanParcel Parcel.zero raw = (p, some e) →
      GetByClient E s c = ([], some e)) ∧
    (∀ cur e, E.query s getByClientText (getByClientArgs c) = .ok cur →
      (∀ x ∈ cur.rows, (scanParcel Parcel.zero x).2 = none) →
      cur.err = some e →
      GetByClient E s c = ([], some e)) ∧
    ((GetByClient E s c).1 ≠ [] → (GetByClient E s c).2 = none) := by
  refine ⟨?_, ?_, ?_, ?_⟩
  · intro e hq
    simp [GetByClient, hq]
  · intro cur pre raw post p e hq hrows hpre hraw
    simp [GetByClient, hq, hrows, scanRows_fail pre post raw p e hpre hraw]
  · intro cur e hq hall herr
    simp [GetByClient, hq, scanRows_ok _ hall, herr]
  · intro hne
    unfold GetByClient at hne ⊢
    cases hq : E.query s getByClientText (getByClientArgs c) with
    | error e => simp [hq] at hne
    | ok cur =>
      cases hs : scanRows cur.rows [] with
      | error e => simp [hq, hs] at hne
      | ok res =>
        cases he : cur.err with
        | some e => simp [hq, hs, he] at hne
        | none => simp [hs, he]

/-- C9, at three engines that fail in the three ways: the query fails; the
second row has a `NULL` status; the iterator reports an error after two good
rows.  Each time the result is the nil sequence and that error. -/
theorem GetByClient_all_or_nothing_witness :
    GetByClient downEngine () 7 = ([], some (.engine (.other 1))) ∧
    GetByClient nullRowEngine () 7 = ([], some (.scan (.null 2))) ∧
    GetByClient brokenIterationEngine () 7 = ([], some (.engine (.other 2))) :=
  ⟨(GetByClient_all_or_nothing downEngine () 7).1 _ rfl,
   (GetByClient_all_or_nothing nullRowEngine () 7).2.1 _
     [[.int 1, .int 7, .text "registered", .text "a", .text "t1"]]
     [.int 2, .int 7, .null, .text "b", .text "t2"]
     [[.int 3, .int 7, .text "sent", .text "c", .text "t3"]]
     ⟨2, 7, "", "", ""⟩ _ rfl rfl
     (by intro x hx; simp only [List.mem_singleton] at hx; subst hx; rfl) rfl,
   (GetByClient_all_or_nothing brokenIterationEngine () 7).2.2.1 _ _ rfl
     (by
       intro x hx
       simp only [brokenIterationEngine, List.mem_cons, List.mem_singleton,
         List.not_mem_nil, or_false] at hx
       rcases hx with rfl | rfl <;> rfl) rfl⟩

/-! ## The mutations on the reference engine -/

theorem foldl_max_bounds (rows : List Row) (init : Int) :
    init ≤ rows.foldl (fun m r => max m r.number) init ∧
    ∀ r ∈ rows, r.number ≤ rows.foldl (fun m r => max m r.number) init := by
  induction rows generalizing init with
  | nil => simp
  | cons x rest ih =>
    obtain ⟨h1, h2⟩ := ih (max init x.number)
    refine ⟨le_trans (le_max_left _ _) h1, ?_⟩
    intro r hr
    rcases List.mem_cons.mp hr with rfl | hr
    · exact le_trans (le_max_right _ _) h1
    · exact h2 r hr

theorem number_le_lastId (db : Table) : ∀ r ∈ db.rows, r.number ≤ db.lastId :=
  (foldl_max_bounds db.rows db.seq).2

theorem Add_strict (db : Table) (p : Parcel) :
    Add (sqlite .strict) db p = (db, 0, some (.engine (.missingArg "createdAt"))) := by
  simp only [Add, sqlite, exec_addText_strict]

theorem Add_lenient (db : Table) (p : Parcel) :
    Add (sqlite .lenient) db p =
      (⟨db.rows ++ [⟨db.lastId + 1, some p.Client, some p.Status, some p.Address, none⟩],
        (db.lastId + 1).toNat⟩, db.lastId + 1, none) := by
  simp only [Add, sqlite, exec_addText_lenient]

theorem SetAddress_strict (db : Table) (n : Int) (a : String) :
    SetAddress (sqlite .strict) db n a = (db, some (.engine (.missingArg "address"))) := by
  simp only [SetAddress, sqlite, exec_setAddressText_strict]

theorem SetAddress_lenient (db : Table) (n : Int) (a : String) :
    SetAddress (sqlite .lenient) db n a =
      (⟨db.rows.map fun r =>
          if r.number == n && r.status == some ParcelStatusRegistered
          then { r with address := none } else r, db.seq⟩, none) := by
  simp only [SetAddress, sqlite, exec_setAddressText_lenient]

theorem Delete_sqlite (b : Binding) (db : Table) (n : Int) :
    Delete (sqlite b) db n = (db, some (.engine .malformed)) := by
  simp only [Delete, sqlite, exec_deleteText]

/-- C1 fails on the code: the `INSERT` of `Add` has the placeholder
`:createdAt` and the argument `created_at`.  With a driver that wants every
placeholder bound, `Add` returns the driver's error for every parcel and
stores nothing; with one that leaves an unbound placeholder `NULL`, `Add`
returns a fresh identifier and `Get` of it fails in `Scan`, `CreatedAt` left
empty.  Either way `Get(Add(p))` does not give `p` back. -/
theorem Add_then_Get_fails :
    (∀ db p, Add (sqlite .strict) db p =
      (db, 0, some (.engine (.missingArg "createdAt")))) ∧
    (∀ db p, (Add (sqlite .lenient) db p).2 = (db.lastId + 1, none) ∧
      Get (sqlite .lenient) (Add (sqlite .lenient) db p).1 (db.lastId + 1) =
        (⟨db.lastId + 1, p.Client, p.Status, p.Address, ""⟩, some (.scan (.null 4)))) ∧
    Add (sqlite .strict) ⟨[], 0⟩ testParcel =
      (⟨[], 0⟩, 0, some (.engine (.missingArg "createdAt"))) ∧
    (Add (sqlite .lenient) ⟨[], 0⟩ testParcel).2 = (1, none) ∧
    Get (sqlite .lenient) (Add (sqlite .lenient) ⟨[], 0⟩ testParcel).1 1 =
      (⟨1, 1000, "registered", "test", ""⟩, some (.scan (.null 4))) := by
  have hgen : ∀ db p, (Add (sqlite .lenient) db p).2 = (db.lastId + 1, none) ∧
      Get (sqlite .lenient) (Add (sqlite .lenient) db p).1 (db.lastId + 1) =
        (⟨db.lastId + 1, p.Client, p.Status, p.Address, ""⟩, some (.scan (.null 4))) := by
    intro db p
    rw [Add_lenient]
    refine ⟨rfl, ?_⟩
    rw [Get_sqlite]
    have hold : (db.rows.filter fun r => r.number == db.lastId + 1) = [] := by
      rw [List.filter_eq_nil_iff]
      intro r hr
      have := number_le_lastId db r hr
      simp only [beq_iff_eq]
      omega
    simp only [List.filter_append, hold, List.nil_append]
    simp [List.filter_cons, scanParcel, Row.cells, Row.get, scanInt, scanString, Parcel.zero]
  refine ⟨Add_strict, hgen, Add_strict _ _, ?_, ?_⟩
  · exact (hgen ⟨[], 0⟩ testParcel).1
  · exact (hgen ⟨[], 0⟩ testParcel).2

/-- C4 fails on the code: the `DELETE` of `Delete` joins its two conditions
with a comma, which is no SQL statement, so for every table and number
`Delete` returns the engine's error and removes nothing; the test parcel,
status "registered", is still returned by `Get` after `Delete`. -/
theorem Delete_registered_fails :
    (∀ b db n, Delete (sqlite b) db n = (db, some (.engine .malformed))) ∧
    parse (tokens deleteText) = none ∧
    Get (sqlite .strict) testTable 1 = (storedTestParcel, none) ∧
    (Delete (sqlite .strict) testTable 1).2 = some (.engine .malformed) ∧
    Get (sqlite .strict) (Delete (sqlite .strict) testTable 1).1 1 =
      (storedTestParcel, none) := by
  refine ⟨Delete_sqlite, rfl, ?_, ?_, ?_⟩
  · rw [Get_sqlite]; rfl
  · rw [Delete_sqlite]
  · rw [Delete_sqlite, Get_sqlite]; rfl

/-- C5 fails on the code: `SetAddress` binds the argument `"address "`
(with a trailing blank) while the statement has the placeholder `:address`.
With a driver that wants every placeholder bound, `SetAddress` returns the
driver's error and the address stays; with one that leaves an unbound
placeholder `NULL`, `SetAddress` returns no error, the address of the
registered parcel becomes `NULL`, and `Get` fails in `Scan`.  Either way the
new address is not stored. -/
theorem SetAddress_registered_fails :
    (∀ db n a, SetAddress (sqlite .strict) db n a =
      (db, some (.engine (.missingArg "address")))) ∧
    (∀ db n a, SetAddress (sqlite .lenient) db n a =
      (⟨db.rows.map fun r =>
          if r.number == n && r.status == some ParcelStatusRegistered
          then { r with address := none } else r, db.seq⟩, none)) ∧
    Get (sqlite .strict) testTable 1 = (storedTestParcel, none) ∧
    Get (sqlite .strict) (SetAddress (sqlite .strict) testTable 1 "new test address").1 1 =
      (storedTestParcel, none) ∧
    Get (sqlite .lenient) (SetAddress (sqlite .lenient) testTable 1 "new test address").1 1 =
      (⟨1, 1000, "registered", "", ""⟩, some (.scan (.null 3))) := by
  refine ⟨SetAddress_strict, SetAddress_lenient, ?_, ?_, ?_⟩
  · rw [Get_sqlite]; rfl
  · rw [SetAddress_strict, Get_sqlite]; rfl
  · rw [SetAddress_lenient, Get_sqlite]; rfl

theorem row_of_key (b : Binding) (db : Table) (n : Int) (q : Parcel)
    (hkey : (db.rows.map Row.number).Nodup) (h : Get (sqlite b) db n = (q, none)) :
    ∀ r ∈ db.rows, r.number = n → r = q.toRow := by
  intro r hr hn
  obtain ⟨rest, hrest⟩ := Get_ok_row b db n q h
  have hm : q.toRow ∈ db.rows.filter fun r => r.number == n := by simp [hrest]
  have hm' := List.mem_filter.mp hm
  have hqn : q.toRow.number = n := by simpa using hm'.2
  exact List.inj_on_of_nodup_map hkey hr hm'.1 (by rw [hn, hqn])

/-- C2 fails on the code: on a stored parcel in status "sent" `SetAddress`
returns the same outcome as on the same parcel in status "registered": the
driver's missing-argument error both times under strict binding, no error
both times under lenient binding.  Nothing in the outcome reports the gate. -/
theorem SetAddress_gate_not_reported :
    Get (sqlite .strict) sentTable 1 = (sentParcel, none) ∧
    ¬ ReportsGate (SetAddress (sqlite .strict) sentTable 1 "new test address").2
        (SetAddress (sqlite .strict) testTable 1 "new test address").2 ∧
    (SetAddress (sqlite .lenient) sentTable 1 "new test address").2 = none ∧
    ¬ ReportsGate (SetAddress (sqlite .lenient) sentTable 1 "new test address").2
        (SetAddress (sqlite .lenient) testTable 1 "new test address").2 := by
  refine ⟨by rw [Get_sqlite]; rfl, ?_, ?_, ?_⟩
  · rw [SetAddress_strict, SetAddress_strict]
    exact fun h => h.2 rfl
  · rw [SetAddress_lenient]
  · rw [SetAddress_lenient, SetAddress_lenient]
    exact fun h => h.2 rfl

/-- C2 as amended: for a parcel stored under `number` (numbers being unique)
whose status is not "registered", and every address `a`, `SetAddress(number, a)`
leaves the table as it was, so `Get(number)` still returns the parcel with its
old address; the error `SetAddress` returns is the engine's error for the one
statement, nil when the engine ran it. -/
theorem SetAddress_blocked_leaves_table (b : Binding) (db : Table) (n : Int) (a : String)
    (q : Parcel) (hkey : (db.rows.map Row.number).Nodup)
    (h : Get (sqlite b) db n = (q, none)) (hs : q.Status ≠ ParcelStatusRegistered) :
    (SetAddress (sqlite b) db n a).1 = db ∧
    Get (sqlite b) (SetAddress (sqlite b) db n a).1 n = (q, none) ∧
    (SetAddress (sqlite b) db n a).2 =
      match ((sqlite b).exec db setAddressText (setAddressArgs n a)).2 with
      | .error e => some e
      | .ok _ => none := by
  have hsame : (SetAddress (sqlite b) db n a).1 = db := by
    cases b with
    | strict => rw [SetAddress_strict]
    | lenient =>
      rw [SetAddress_lenient]
      have hmap : (db.rows.map fun r =>
          if r.number == n && r.status == some ParcelStatusRegistered
          then { r with address := none } else r) = db.rows := by
        conv_rhs => rw [← List.map_id db.rows]
        apply List.map_congr_left
        intro r hr
        by_cases hn : r.number = n
        · have hrq := row_of_key .lenient db n q hkey h r hr hn
          subst hrq
          simp [Parcel.toRow, hs]
        · simp [hn]
      simp only [hmap]
  refine ⟨hsame, by rw [hsame]; exact h, ?_⟩
  cases b with
  | strict => rw [SetAddress_strict]; simp only [sqlite, exec_setAddressText_strict]
  | lenient => rw [SetAddress_lenient]; simp only [sqlite, exec_setAddressText_lenient]

/-- C2 as amended, at the parcel in status "sent": the table is as before
and `Get` returns the parcel with the address "test". -/
theorem SetAddress_blocked_leaves_table_witness :
    (SetAddress (sqlite .lenient) sentTable 1 "new test address").1 = sentTable ∧
    Get (sqlite .lenient) (SetAddress (sqlite .lenient) sentTable 1 "new test address").1 1 =
      (sentParcel, none) :=
  ⟨(SetAddress_blocked_leaves_table .lenient sentTable 1 "new test address" sentParcel
      (by decide) (by rw [Get_sqlite]; rfl) (by decide)).1,
   (SetAddress_blocked_leaves_table .lenient sentTable 1 "new test address" sentParcel
      (by decide) (by rw [Get_sqlite]; rfl) (by decide)).2.1⟩

/-- C3 fails on the code: on a stored parcel in status "sent" `Delete` returns
the same outcome as on the same parcel in status "registered", the engine's
error for the malformed statement.  Nothing in the outcome reports the gate. -/
theorem Delete_gate_not_reported :
    Get (sqlite .strict) sentTable 1 = (sentParcel, none) ∧
    (Delete (sqlite .strict) sentTable 1).2 = (Delete (sqlite .strict) testTable 1).2 ∧
    ¬ ReportsGate (Delete (sqlite .strict) sentTable 1).2
        (Delete (sqlite .strict) testTable 1).2 ∧
    ¬ ReportsGate (Delete (sqlite .lenient) sentTable 1).2
        (Delete (sqlite .lenient) testTable 1).2 := by
  refine ⟨by rw [Get_sqlite]; rfl, ?_, ?_, ?_⟩
  · rw [Delete_sqlite, Delete_sqlite]
  · rw [Delete_sqlite, Delete_sqlite]
    exact fun h => h.2 rfl
  · rw [Delete_sqlite, Delete_sqlite]
    exact fun h => h.2 rfl

/-- C3 as amended: for a parcel stored under `number` whose status is not
"registered", `Delete(number)` leaves the table as it was, so `Get(number)`
still succeeds and returns the same parcel; the error `Delete` returns is the
engine's error for the one statement, nil when the engine ran it. -/
theorem Delete_blocked_leaves_table (b : Binding) (db : Table) (n : Int) (q : Parcel)
    (h : Get (sqlite b) db n = (q, none)) (_hs : q.Status ≠ ParcelStatusRegistered) :
    (Delete (sqlite b) db n).1 = db ∧
    Get (sqlite b) (Delete (sqlite b) db n).1 n = (q, none) ∧
    (Delete (sqlite b) db n).2 =
      match ((sqlite b).exec db deleteText (deleteArgs n)).2 with
      | .error e => some e
      | .ok _ => none := by
  refine ⟨by rw [Delete_sqlite], by rw [Delete_sqlite]; exact h, ?_⟩
  rw [Delete_sqlite]
  simp only [sqlite, exec_deleteText]

/-- C3 as amended, at the parcel in status "sent": the table is as before
and `Get` returns the same parcel. -/
theorem Delete_blocked_leaves_table_witness :
    (Delete (sqlite .strict) sentTable 1).1 = sentTable ∧
    Get (sqlite .strict) (Delete (sqlite .strict) sentTable 1).1 1 = (sentParcel, none) :=
  ⟨(Delete_blocked_leaves_table .strict sentTable 1 sentParcel
      (by rw [Get_sqlite]; rfl) (by decide)).1,
   (Delete_blocked_leaves_table .strict sentTable 1 sentParcel
      (by rw [Get_sqlite]; rfl) (by decide)).2.1⟩

/-- C10 fails on the code: in `Add` the placeholder `:createdAt` has no
argument of its name and is no column name, and the argument `created_at` has
no placeholder; in `SetAddress` the placeholder `:address` has no argument of
its name and the argument `"address "` (trailing blank) has no placeholder.
In the other four statements every placeholder is a column name bound by an
argument of exactly that name, and no argument is left over. -/
theorem placeholder_names_mismatch :
    (∀ p, unbound addText (addArgs p) = ["createdAt"] ∧
      unused addText (addArgs p) = ["created_at"]) ∧
    notColumns addText = ["createdAt"] ∧
    (∀ n a, unbound setAddressText (setAddressArgs n a) = ["address"] ∧
      unused setAddressText (setAddressArgs n a) = ["address "]) ∧
    notColumns setAddressText = [] ∧
    (∀ n, unbound getText (getArgs n) = [] ∧ unused getText (getArgs n) = []) ∧
    notColumns getText = [] ∧
    (∀ c, unbound getByClientText (getByClientArgs c) = [] ∧
      unused getByClientText (getByClientArgs c) = []) ∧
    notColumns getByClientText = [] ∧
    (∀ n s, unbound setStatusText (setStatusArgs n s) = [] ∧
      unused setStatusText (setStatusArgs n s) = []) ∧
    notColumns setStatusText = [] ∧
    (∀ n, unbound deleteText (deleteArgs n) = [] ∧ unused deleteText (deleteArgs n) = []) ∧
    notColumns deleteText = [] :=
  ⟨fun _ => ⟨rfl, rfl⟩, rfl, fun _ _ => ⟨rfl, rfl⟩, rfl, fun _ => ⟨rfl, rfl⟩, rfl,
   fun _ => ⟨rfl, rfl⟩, rfl, fun _ _ => ⟨rfl, rfl⟩, rfl, fun _ => ⟨rfl, rfl⟩, rfl⟩

end ParcelStore
